import Mathlib

/-!
Verification development for the webmux serial-port multiplexer.

The Rust sources are shallowly embedded: pure computations become Lean
functions, the stateful session/registry code becomes explicit state
passing with step functions, and the two long-running tasks of a session
are modelled by the ordered lists of state effects their loop bodies
perform.  Bytes are `Nat` values with `< 256` hypotheses where two-digit
hex formatting matters.
-/

namespace Webmux

/-! ## Configuration types, from `src/config/mod.rs`. -/

inductive DataBits
  | five | six | seven | eight
deriving DecidableEq, Repr

inductive StopBits
  | one | two
deriving DecidableEq, Repr

inductive Parity
  | none | odd | even
deriving DecidableEq, Repr

inductive FlowControl
  | none | software | hardware
deriving DecidableEq, Repr

structure LoggingConfig where
  enabled : Bool
  path : String
deriving DecidableEq, Repr

structure SerialConnectionConfig where
  name : String
  port : String
  baud_rate : Nat
  data_bits : DataBits
  stop_bits : StopBits
  parity : Parity
  flow_control : FlowControl
  enabled : Bool
  logging : LoggingConfig
  description : String
deriving DecidableEq, Repr

/-- A byte block, `SerialData = Vec<u8>` in `src/serial/mod.rs`. -/
abbrev SerialData := List Nat

/-! ## Audit log writer, from `src/logging/mod.rs`.

`SerialLogger::log_data` formats one line per call.  The in-file state of
the logger is modelled as the list of lines appended so far; the wall
clock timestamp is an input. -/

/-- Lowercase hexadecimal digit character for a value `< 16`
(the `{:02x}` formatter of Rust). -/
def hexDigitChar (n : Nat) : Char :=
  if n < 10 then Char.ofNat (48 + n) else Char.ofNat (87 + n)

/-- Two-digit lowercase hex rendering of one byte, `format!("{:02x}", b)`. -/
def hexByte (b : Nat) : String :=
  String.mk [hexDigitChar (b / 16), hexDigitChar (b % 16)]

/-- `data.iter().map(hex).collect::<Vec<_>>().join(" ")` of `log_data`. -/
def hexJoined (data : SerialData) : String :=
  String.intercalate " " (data.map hexByte)

/-- The ASCII column of `log_data`: `is_ascii_graphic` bytes (0x21–0x7e)
and the space byte render as themselves, everything else as `'.'`. -/
def asciiDisplay (b : Nat) : Char :=
  if (0x21 ≤ b ∧ b ≤ 0x7e) ∨ b = 0x20 then Char.ofNat b else '.'

/-- The ASCII column string of `log_data`. -/
def asciiColumn (data : SerialData) : String :=
  String.mk (data.map asciiDisplay)

/-- The one line `SerialLogger::log_data` appends:
`[timestamp] <name> | <dir> | <n> bytes | HEX: <hex> | ASCII: <ascii>\n`. -/
def logLine (timestamp name direction : String) (data : SerialData) : String :=
  "[" ++ timestamp ++ "] " ++ name ++ " | " ++ direction ++ " | " ++
    toString data.length ++ " bytes | HEX: " ++ hexJoined data ++
    " | ASCII: " ++ asciiColumn data ++ "\n"

/-- Logger state: the connection name and the lines written so far. -/
structure SerialLogger where
  connection_name : String
  lines : List String
deriving DecidableEq, Repr

/-- `SerialLogger::log_data`: append exactly one formatted line. -/
def SerialLogger.log_data (lg : SerialLogger) (timestamp direction : String)
    (data : SerialData) : SerialLogger :=
  { lg with lines := lg.lines ++ [logLine timestamp lg.connection_name direction data] }

/-- `SerialLogger::log_received` = `log_data("RX", data)`. -/
def SerialLogger.log_received (lg : SerialLogger) (timestamp : String)
    (data : SerialData) : SerialLogger :=
  lg.log_data timestamp "RX" data

/-- `SerialLogger.log_sent` = `log_data("TX", data)`. -/
def SerialLogger.log_sent (lg : SerialLogger) (timestamp : String)
    (data : SerialData) : SerialLogger :=
  lg.log_data timestamp "TX" data

/-! ## Hex decoding.

`send_data` in `src/web/handlers.rs` calls `hex::decode` after stripping
spaces.  The `hex` crate's decoder requires an even number of hex digits
(either case) and is modelled here byte pair by byte pair. -/

/-- Value of one hex digit character, accepting both cases
(the `hex` crate's digit table). -/
def hexDigitVal (c : Char) : Option Nat :=
  if 48 ≤ c.toNat ∧ c.toNat ≤ 57 then some (c.toNat - 48)
  else if 97 ≤ c.toNat ∧ c.toNat ≤ 102 then some (c.toNat - 87)
  else if 65 ≤ c.toNat ∧ c.toNat ≤ 70 then some (c.toNat - 55)
  else none

/-- `hex::decode` on a character list: pairs of digits, even length required. -/
def hexDecodeChars : List Char → Option (List Nat)
  | [] => some []
  | [_] => none
  | c1 :: c2 :: rest =>
    match hexDigitVal c1, hexDigitVal c2, hexDecodeChars rest with
    | some h, some l, some tail => some ((16 * h + l) :: tail)
    | _, _, _ => none

/-- `hex::decode` on a string. -/
def hexDecode (s : String) : Option (List Nat) :=
  hexDecodeChars s.data

/-- Lowercase no-space hex encoding of a byte sequence (character list). -/
def hexEncodeChars (data : SerialData) : List Char :=
  data.flatMap (fun b => [hexDigitChar (b / 16), hexDigitChar (b % 16)])

/-- Lowercase no-space hex encoding of a byte sequence. -/
def hexEncode (data : SerialData) : String :=
  String.mk (hexEncodeChars data)

/-- `request.data.replace(" ", "")` of `send_data`: remove every space. -/
def stripSpaces (s : String) : String :=
  String.mk (s.data.filter (fun c => c ≠ ' '))

/-! Basic facts about the hex digits. -/

theorem hexDigitVal_hexDigitChar : ∀ n < 16, hexDigitVal (hexDigitChar n) = some n := by
  decide

theorem hexDecodeChars_append_pair (b : Nat) (hb : b < 256) (rest : List Char) :
    hexDecodeChars (hexDigitChar (b / 16) :: hexDigitChar (b % 16) :: rest) =
      (hexDecodeChars rest).map (fun tail => b :: tail) := by
  have h1 : b / 16 < 16 := by omega
  have h2 : b % 16 < 16 := Nat.mod_lt _ (by norm_num)
  simp only [hexDecodeChars, hexDigitVal_hexDigitChar _ h1, hexDigitVal_hexDigitChar _ h2]
  have hb16 : 16 * (b / 16) + b % 16 = b := by omega
  cases hexDecodeChars rest <;> simp [hb16]

theorem hexDecodeChars_hexEncodeChars (data : SerialData) (h : ∀ b ∈ data, b < 256) :
    hexDecodeChars (hexEncodeChars data) = some data := by
  induction data with
  | nil => rfl
  | cons b rest ih =>
    have hb : b < 256 := h b (List.mem_cons_self _ _)
    have hrest : ∀ x ∈ rest, x < 256 := fun x hx => h x (List.mem_cons_of_mem _ hx)
    simp only [hexEncodeChars, List.flatMap_cons, List.cons_append, List.nil_append]
    rw [hexDecodeChars_append_pair b hb]
    rw [show rest.flatMap (fun b => [hexDigitChar (b / 16), hexDigitChar (b % 16)]) =
          hexEncodeChars rest from rfl]
    rw [ih hrest]
    rfl

/-! ## Base64 (standard alphabet, canonical padding).

`send_data` calls the `base64` crate's `STANDARD` engine.  The decoder is
modelled group by group: four characters yield three bytes, the final
group may carry one or two `=` pads, and non-canonical trailing bits are
rejected (the engine's default). -/

/-- Standard-alphabet character of one 6-bit value. -/
def b64Char (n : Nat) : Char :=
  if n < 26 then Char.ofNat (65 + n)
  else if n < 52 then Char.ofNat (97 + (n - 26))
  else if n < 62 then Char.ofNat (48 + (n - 52))
  else if n = 62 then '+'
  else '/'

/-- 6-bit value of one standard-alphabet character. -/
def b64Val (c : Char) : Option Nat :=
  if 65 ≤ c.toNat ∧ c.toNat ≤ 90 then some (c.toNat - 65)
  else if 97 ≤ c.toNat ∧ c.toNat ≤ 122 then some (c.toNat - 97 + 26)
  else if 48 ≤ c.toNat ∧ c.toNat ≤ 57 then some (c.toNat - 48 + 52)
  else if c = '+' then some 62
  else if c = '/' then some 63
  else none

/-- Canonical padded base64 encoding (character list), three bytes per
four characters, `=` padding on the final partial group. -/
def base64EncodeChars : SerialData → List Char
  | b1 :: b2 :: b3 :: rest =>
    b64Char (b1 / 4) :: b64Char (b1 % 4 * 16 + b2 / 16) ::
      b64Char (b2 % 16 * 4 + b3 / 64) :: b64Char (b3 % 64) ::
        base64EncodeChars rest
  | [b1, b2] => [b64Char (b1 / 4), b64Char (b1 % 4 * 16 + b2 / 16), b64Char (b2 % 16 * 4), '=']
  | [b1] => [b64Char (b1 / 4), b64Char (b1 % 4 * 16), '=', '=']
  | [] => []

/-- Canonical padded base64 encoding of a byte sequence. -/
def base64Encode (data : SerialData) : String :=
  String.mk (base64EncodeChars data)

/-- Base64 decoding with canonical-padding enforcement: the input is
consumed in groups of four characters; `=` may appear only as the pad of
the last group and the unused low bits of the last data character must
be zero. -/
def base64DecodeChars : List Char → Option (List Nat)
  | [] => some []
  | c1 :: c2 :: c3 :: c4 :: rest =>
    match b64Val c1, b64Val c2 with
    | some v1, some v2 =>
      if c3 = '=' then
        if c4 = '=' ∧ rest = [] ∧ v2 % 16 = 0 then
          some [v1 * 4 + v2 / 16]
        else none
      else
        match b64Val c3 with
        | some v3 =>
          if c4 = '=' then
            if rest = [] ∧ v3 % 4 = 0 then
              some [v1 * 4 + v2 / 16, v2 % 16 * 16 + v3 / 4]
            else none
          else
            match b64Val c4, base64DecodeChars rest with
            | some v4, some tail =>
              some ((v1 * 4 + v2 / 16) :: (v2 % 16 * 16 + v3 / 4) :: (v3 % 4 * 64 + v4) :: tail)
            | _, _ => none
        | none => none
    | _, _ => none
  | _ => none

/-- Base64 decoding of a string. -/
def base64Decode (s : String) : Option (List Nat) :=
  base64DecodeChars s.data

theorem b64Val_b64Char : ∀ n < 64, b64Val (b64Char n) = some n := by
  decide

theorem b64Char_ne_pad : ∀ n < 64, b64Char n ≠ '=' := by
  decide

theorem base64DecodeChars_base64EncodeChars (data : SerialData)
    (h : ∀ b ∈ data, b < 256) : base64DecodeChars (base64EncodeChars data) = some data := by
  induction data using base64EncodeChars.induct with
  | case1 b1 b2 b3 rest ih =>
    have h1 : b1 < 256 := h b1 (by simp)
    have h2 : b2 < 256 := h b2 (by simp)
    have h3 : b3 < 256 := h b3 (by simp)
    have hrest : ∀ x ∈ rest, x < 256 := fun x hx => h x (by simp [hx])
    have e1 : b1 / 4 < 64 := by omega
    have e2 : b1 % 4 * 16 + b2 / 16 < 64 := by omega
    have e3 : b2 % 16 * 4 + b3 / 64 < 64 := by omega
    have e4 : b3 % 64 < 64 := by omega
    simp only [base64EncodeChars, base64DecodeChars,
      b64Val_b64Char _ e1, b64Val_b64Char _ e2, b64Val_b64Char _ e3, b64Val_b64Char _ e4,
      if_neg (b64Char_ne_pad _ e3), if_neg (b64Char_ne_pad _ e4), ih hrest]
    have r1 : b1 / 4 * 4 + (b1 % 4 * 16 + b2 / 16) / 16 = b1 := by omega
    have r2 : (b1 % 4 * 16 + b2 / 16) % 16 * 16 + (b2 % 16 * 4 + b3 / 64) / 4 = b2 := by omega
    have r3 : (b2 % 16 * 4 + b3 / 64) % 4 * 64 + b3 % 64 = b3 := by omega
    simp [r1, r2, r3]
  | case2 b1 b2 =>
    have h1 : b1 < 256 := h b1 (by simp)
    have h2 : b2 < 256 := h b2 (by simp)
    have e1 : b1 / 4 < 64 := by omega
    have e2 : b1 % 4 * 16 + b2 / 16 < 64 := by omega
    have e3 : b2 % 16 * 4 < 64 := by omega
    simp only [base64EncodeChars, base64DecodeChars,
      b64Val_b64Char _ e1, b64Val_b64Char _ e2, b64Val_b64Char _ e3,
      if_neg (b64Char_ne_pad _ e3)]
    have r1 : b1 / 4 * 4 + (b1 % 4 * 16 + b2 / 16) / 16 = b1 := by omega
    have r2 : (b1 % 4 * 16 + b2 / 16) % 16 * 16 + (b2 % 16 * 4) / 4 = b2 := by omega
    have r3 : b2 % 16 * 4 % 4 = 0 := by omega
    simp [r1, r2, r3]
    omega
  | case3 b1 =>
    have h1 : b1 < 256 := h b1 (by simp)
    have e1 : b1 / 4 < 64 := by omega
    have e2 : b1 % 4 * 16 < 64 := by omega
    simp only [base64EncodeChars, base64DecodeChars,
      b64Val_b64Char _ e1, b64Val_b64Char _ e2]
    have r1 : b1 / 4 * 4 + b1 % 4 * 16 / 16 = b1 := by omega
    have r2 : b1 % 4 * 16 % 16 = 0 := by omega
    simp [r1, r2]
    omega
  | case4 => rfl

/-! ## Port session, from `src/serial/connection.rs`.

A session's runtime state: the statistics record, the write mailbox
(`mpsc` capacity 100), the shutdown channel, the two task liveness flags,
and the observable histories (blocks published to the broadcast channel,
records appended to the audit log). -/

structure Stats where
  bytes_received : Nat
  bytes_sent : Nat
  is_connected : Bool
deriving DecidableEq, Repr

structure SessionState where
  config : SerialConnectionConfig
  stats : Stats
  /-- Pending blocks in the bounded write mailbox, FIFO. -/
  mailbox : List SerialData
  /-- All `mpsc` senders (the `SerialConnection` clones) have been dropped. -/
  sendersDropped : Bool
  /-- The `Option<mpsc::Sender<()>>` shutdown sender is still `Some`. -/
  shutdownTx : Bool
  /-- A `()` is waiting in the shutdown channel. -/
  shutdownSignaled : Bool
  readerRunning : Bool
  writerRunning : Bool
  /-- Blocks published to the broadcast channel, in order. -/
  broadcastLog : List SerialData
  /-- Audit records appended, in order: (direction, block). -/
  logRecords : List (String × SerialData)
deriving DecidableEq, Repr

/-- `SerialConnection::new`: fresh statistics (`is_connected = true`),
empty mailbox, armed shutdown sender, both tasks spawned. -/
def SerialConnection.new (config : SerialConnectionConfig) : SessionState :=
  { config := config
    stats := { bytes_received := 0, bytes_sent := 0, is_connected := true }
    mailbox := []
    sendersDropped := false
    shutdownTx := true
    shutdownSignaled := false
    readerRunning := true
    writerRunning := true
    broadcastLog := []
    logRecords := [] }

inductive SendResult
  | ok
  /-- `tx.send` fails when the receiver (held by the writer task) is gone. -/
  | mailboxClosed
deriving DecidableEq, Repr

/-- `SerialConnection::send`: enqueue one block; fails only if the writer
task has exited (receiver dropped). -/
def SerialConnection.send (s : SessionState) (data : SerialData) :
    SessionState × SendResult :=
  if s.writerRunning then ({ s with mailbox := s.mailbox ++ [data] }, .ok)
  else (s, .mailboxClosed)

/-- `SerialConnection::stop`: take the shutdown sender out of the
`Option` and send `()` on it; a second call finds `None` and is a no-op.
Nothing else is touched. -/
def SerialConnection.stop (s : SessionState) : SessionState :=
  if s.shutdownTx then { s with shutdownTx := false, shutdownSignaled := true }
  else s

/-- `SerialConnection::subscribe`: a new receiver beginning at the current
end of the broadcast history; the session state is unchanged. -/
def SerialConnection.subscribe (s : SessionState) : SessionState × Nat :=
  (s, s.broadcastLog.length)

/-- `ConnectionStats`, from `src/serial/mod.rs`. -/
structure ConnectionStats where
  name : String
  port : String
  bytes_received : Nat
  bytes_sent : Nat
  is_connected : Bool
  uptime_seconds : Nat
deriving DecidableEq, Repr

/-- `SerialConnection::get_stats`: a read-only snapshot. -/
def SerialConnection.get_stats (s : SessionState) (uptime : Nat) : ConnectionStats :=
  { name := s.config.name, port := s.config.port
    bytes_received := s.stats.bytes_received, bytes_sent := s.stats.bytes_sent
    is_connected := s.stats.is_connected, uptime_seconds := uptime }

/-- One outcome of the reader task's `select!`. -/
inductive ReadEvent
  /-- The device read returned `Ok(n)` with these bytes (`[]` is `Ok(0)`). -/
  | readData (data : SerialData)
  /-- The device read returned `Err`. -/
  | readErr
  /-- The shutdown arm fired: a signal was queued or the sender was dropped. -/
  | shutdownRecv
deriving DecidableEq, Repr

/-- Reader loop exit: the single place `is_connected` is assigned. -/
def readerExit (s : SessionState) : SessionState :=
  { s with readerRunning := false, stats := { s.stats with is_connected := false } }

/-- One iteration of the reader loop, from the source: on `Ok(n)` with
`n > 0` add `n` to `bytes_received`, then log if enabled, then publish;
on `Ok(0)`, `Err` or shutdown break and clear `is_connected`. -/
def readerStep (s : SessionState) (e : ReadEvent) : SessionState :=
  match e with
  | .readData [] => readerExit s
  | .readData data =>
    let s1 := { s with stats := { s.stats with
                  bytes_received := s.stats.bytes_received + data.length } }
    let s2 := if s.config.logging.enabled
              then { s1 with logRecords := s1.logRecords ++ [("RX", data)] }
              else s1
    { s2 with broadcastLog := s2.broadcastLog ++ [data] }
  | .readErr => readerExit s
  | .shutdownRecv =>
    if s.shutdownSignaled ∨ ¬s.shutdownTx then readerExit { s with shutdownSignaled := false }
    else s

/-- One iteration of the writer loop, from the source: dequeue a block;
on a successful `write_all` add its length to `bytes_sent` and log if
enabled; on a write error log and continue; exit only when the mailbox
is empty and every sender has been dropped (`recv` returned `None`). -/
def writerStep (s : SessionState) (writeOk : Bool) : SessionState :=
  match s.mailbox with
  | data :: rest =>
    if writeOk then
      let s1 := { s with mailbox := rest, stats := { s.stats with
                    bytes_sent := s.stats.bytes_sent + data.length } }
      if s.config.logging.enabled
      then { s1 with logRecords := s1.logRecords ++ [("TX", data)] }
      else s1
    else { s with mailbox := rest }
  | [] => if s.sendersDropped then { s with writerRunning := false } else s

/-- Every transition of a session: one step of either task, or one of the
`SerialConnection` methods, or dropping every `SerialConnection` clone. -/
inductive SessionEvent
  | reader (e : ReadEvent)
  | writer (writeOk : Bool)
  | apiSend (data : SerialData)
  | apiStop
  | apiSubscribe
  | dropHandles
deriving DecidableEq, Repr

/-- The session transition function. -/
def sessionStep (s : SessionState) (e : SessionEvent) : SessionState :=
  match e with
  | .reader re => if s.readerRunning then readerStep s re else s
  | .writer wOk => if s.writerRunning then writerStep s wOk else s
  | .apiSend data => (SerialConnection.send s data).1
  | .apiStop => SerialConnection.stop s
  | .apiSubscribe => (SerialConnection.subscribe s).1
  | .dropHandles => { s with sendersDropped := true, shutdownTx := false }

/-! ### Per-iteration effect traces.

For the ordering claims the loop bodies are also modelled as the ordered
lists of state effects a single iteration performs. -/

inductive Action
  | incRecv (n : Nat)
  | logSubmit (direction : String) (data : SerialData)
  | publish (data : SerialData)
  | incSent (n : Nat)
deriving DecidableEq, Repr

def isIncRecv : Action → Bool
  | .incRecv _ => true
  | _ => false

def isIncSent : Action → Bool
  | .incSent _ => true
  | _ => false

/-- Ordered effects of one reader iteration and whether the loop
continues, mirroring the source's `Ok(n)` arm: stats update, then the
optional log submission, then the broadcast publish. -/
def readerActions (logging : Bool) : ReadEvent → List Action × Bool
  | .readData [] => ([], false)
  | .readData data =>
    (Action.incRecv data.length ::
      ((if logging then [Action.logSubmit "RX" data] else []) ++ [Action.publish data]),
     true)
  | .readErr => ([], false)
  | .shutdownRecv => ([], false)

/-- One receive of the writer loop. -/
inductive WriteEvent
  /-- A block was dequeued; `writeOk` is whether `write_all` succeeded. -/
  | recv (data : SerialData) (writeOk : Bool)
  /-- `recv` returned `None`: every sender was dropped. -/
  | closed
deriving DecidableEq, Repr

/-- Ordered effects of one writer iteration and whether the loop
continues: on success count then log; on a write error nothing (the
error is traced and the loop continues); on `closed` the task exits. -/
def writerActions (logging : Bool) : WriteEvent → List Action × Bool
  | .recv data true =>
    (Action.incSent data.length :: (if logging then [Action.logSubmit "TX" data] else []),
     true)
  | .recv _ false => ([], true)
  | .closed => ([], false)

/-! ## Session registry, from `src/serial/mod.rs`.

The `HashMap<String, SerialConnection>` is an association list with
insert-replace semantics; session objects live in a heap of ids so that
an object dropped from the map (but whose tasks still run) stays
observable. -/

structure ManagerWorld where
  registry : List (String × Nat)
  heap : List (Nat × SessionState)
  nextId : Nat
deriving DecidableEq, Repr

def ManagerWorld.initial : ManagerWorld :=
  { registry := [], heap := [], nextId := 0 }

def lookupReg (m : List (String × Nat)) (k : String) : Option Nat :=
  (m.find? (fun p => p.1 == k)).map (fun p => p.2)

/-- `HashMap::insert`: any existing entry under the key is replaced. -/
def insertReg (k : String) (v : Nat) (m : List (String × Nat)) : List (String × Nat) :=
  m.filter (fun p => !(p.1 == k)) ++ [(k, v)]

def heapGet (h : List (Nat × SessionState)) (sid : Nat) : Option SessionState :=
  (h.find? (fun p => p.1 == sid)).map (fun p => p.2)

def heapUpdate (h : List (Nat × SessionState)) (sid : Nat)
    (f : SessionState → SessionState) : List (Nat × SessionState) :=
  h.map (fun p => if p.1 == sid then (p.1, f p.2) else p)

/-- `SerialManager::add_connection`: skip disabled configs; otherwise open
a new session (`openOk` models the fallible device/log open) and insert it
into the map — with no duplicate-name check, so an existing entry under
the same name is replaced. -/
def SerialManager.add_connection (w : ManagerWorld) (config : SerialConnectionConfig)
    (openOk : Bool) : ManagerWorld × Except String Unit :=
  if ¬config.enabled then (w, .ok ())
  else if ¬openOk then (w, .error "DeviceOpenError")
  else
    ({ registry := insertReg config.name w.nextId w.registry
       heap := w.heap ++ [(w.nextId, SerialConnection.new config)]
       nextId := w.nextId + 1 },
     .ok ())

/-- `SerialManager::remove_connection`: remove the entry and call `stop`. -/
def SerialManager.remove_connection (w : ManagerWorld) (name : String) :
    ManagerWorld × Except String Unit :=
  match lookupReg w.registry name with
  | some sid =>
    ({ w with registry := w.registry.filter (fun p => !(p.1 == name))
              heap := heapUpdate w.heap sid SerialConnection.stop },
     .ok ())
  | none => (w, .error ("Connection not found: " ++ name))

/-- `SerialManager::get_connection`: read-only lookup. -/
def SerialManager.get_connection (w : ManagerWorld) (name : String) : Option SessionState :=
  (lookupReg w.registry name).bind (heapGet w.heap)

/-- The drain loop of `SerialManager::shutdown`: call `stop` on each
drained entry, in order. -/
def drainStop : List (String × Nat) → List (Nat × SessionState) → List (Nat × SessionState)
  | [], h => h
  | (_, sid) :: rest, h => drainStop rest (heapUpdate h sid SerialConnection.stop)

/-- `SerialManager::shutdown`: drain the map, calling `stop` on each
entry; it keeps no join handles and awaits nothing else. -/
def SerialManager.shutdown (w : ManagerWorld) : ManagerWorld :=
  { w with registry := [], heap := drainStop w.registry w.heap }

/-! ## Control API handlers, from `src/web/handlers.rs` and `src/web/mod.rs`. -/

structure ConnectionInfo where
  name : String
  port : String
  baud_rate : Nat
  data_bits : String
  stop_bits : String
  parity : String
deriving DecidableEq, Repr

def dataBitsString : DataBits → String
  | .five => "5"
  | .six => "6"
  | .seven => "7"
  | .eight => "8"

def stopBitsString : StopBits → String
  | .one => "1"
  | .two => "2"

/-- `format!("{:?}", parity)` on the derived `Debug` of `Parity`. -/
def parityDebugString : Parity → String
  | .none => "None"
  | .odd => "Odd"
  | .even => "Even"

structure ApiError where
  error : String
deriving DecidableEq, Repr

/-- The HTTP status a handler result is rendered with: `Json(..)` is 200,
`ApiError::into_response` is `INTERNAL_SERVER_ERROR`. -/
def responseStatus {α : Type} : Except ApiError α → Nat
  | .ok _ => 200
  | .error _ => 500

/-- `get_connection_info`: look the session up; on a hit render its
config, on a miss answer 200 with an empty-fielded object echoing the
requested name.  The registry is only read. -/
def get_connection_info (w : ManagerWorld) (name : String) :
    ManagerWorld × Except ApiError ConnectionInfo :=
  (w,
   match SerialManager.get_connection w name with
   | some conn =>
     .ok { name := conn.config.name
           port := conn.config.port
           baud_rate := conn.config.baud_rate
           data_bits := dataBitsString conn.config.data_bits
           stop_bits := stopBitsString conn.config.stop_bits
           parity := parityDebugString conn.config.parity }
   | none =>
     .ok { name := name, port := "", baud_rate := 0
           data_bits := "", stop_bits := "", parity := "" })

inductive DataFormat
  | text
  | hex
  | base64
deriving DecidableEq, Repr

/-- `String::into_bytes`: the UTF-8 bytes of the string. -/
def utf8Bytes (s : String) : SerialData :=
  (s.data.flatMap String.utf8EncodeChar).map (fun b => b.toNat)

/-- The decoding block of the `send_data` handler: text is the raw UTF-8
bytes, hex strips spaces then calls `hex::decode`, base64 uses the
standard engine. -/
def send_data_decode (format : DataFormat) (data : String) : Except String SerialData :=
  match format with
  | .text => .ok (utf8Bytes data)
  | .hex =>
    match hexDecode (stripSpaces data) with
    | some bs => .ok bs
    | none => .error "Invalid hex data"
  | .base64 =>
    match base64Decode data with
    | some bs => .ok bs
    | none => .error "Invalid base64 data"

/-! ## Stream bridge, from `websocket_connection` in `src/web/handlers.rs`. -/

/-- The error half of `tokio::sync::broadcast::Receiver::recv`. -/
inductive RecvError
  /-- The ring overwrote `n` unread blocks for this subscriber. -/
  | lagged (n : Nat)
  | closed
deriving DecidableEq, Repr

/-- One iteration of the outbound task's
`while let Ok(data) = serial_rx.recv().await { … }` loop: the result is
whether the loop continues.  The `while let Ok` pattern exits on any
`Err`, so a `Lagged` notice ends the loop exactly as `Closed` does. -/
def outboundIter (recvResult : Except RecvError SerialData) (wsSendOk : Bool) : Bool :=
  match recvResult with
  | .ok _ => wsSendOk
  | .error _ => false

/-- The final `select!` of `websocket_connection`: whichever task exits
first causes the other to be aborted, so the bridge terminates as soon as
either task has exited. -/
def bridgeTerminates (outboundExited inboundExited : Bool) : Bool :=
  outboundExited || inboundExited

/-! ## Concrete fixtures used by witnesses and counterexamples. -/

/-- A concrete enabled configuration. -/
def cfgA : SerialConnectionConfig :=
  { name := "a", port := "/dev/ttyUSB0", baud_rate := 9600
    data_bits := .eight, stop_bits := .one, parity := .none
    flow_control := .none, enabled := true
    logging := { enabled := false, path := "logs/a.log" }, description := "" }

/-- A second configuration with the same name. -/
def cfgA2 : SerialConnectionConfig :=
  { cfgA with description := "replacement", baud_rate := 115200 }

/-- A world holding one live session named `"a"` (id 0). -/
def w1 : ManagerWorld :=
  (SerialManager.add_connection ManagerWorld.initial cfgA true).1

/-- A concrete running session. -/
def sessA : SessionState := SerialConnection.new cfgA

/-! ## Helper lemmas. -/

theorem stop_shutdownTx (s : SessionState) :
    (SerialConnection.stop s).shutdownTx = false := by
  by_cases hs : s.shutdownTx
  · simp [SerialConnection.stop, hs]
  · have hs' : s.shutdownTx = false := by simpa using hs
    simp [SerialConnection.stop, hs']

theorem stop_preserves (s : SessionState) :
    (SerialConnection.stop s).readerRunning = s.readerRunning ∧
    (SerialConnection.stop s).writerRunning = s.writerRunning ∧
    (SerialConnection.stop s).stats = s.stats ∧
    (SerialConnection.stop s).mailbox = s.mailbox ∧
    (SerialConnection.stop s).sendersDropped = s.sendersDropped ∧
    (SerialConnection.stop s).config = s.config := by
  by_cases hs : s.shutdownTx <;> simp [SerialConnection.stop, hs]

theorem lookupReg_insertReg_self (k : String) (v : Nat) (m : List (String × Nat)) :
    lookupReg (insertReg k v m) k = some v := by
  unfold lookupReg insertReg
  rw [List.find?_append]
  have h1 : (m.filter (fun p => !(p.1 == k))).find? (fun p => p.1 == k) = none := by
    rw [List.find?_eq_none]
    intro x hx
    have hxm := (List.mem_filter.mp hx).2
    simp at hxm ⊢
    exact hxm
  rw [h1]
  simp

theorem lookupReg_insertReg_ne (k : String) (v : Nat) (m : List (String × Nat))
    (n : String) (h : n ≠ k) :
    lookupReg (insertReg k v m) n = lookupReg m n := by
  unfold lookupReg insertReg
  rw [List.find?_append]
  have h2 : ([(k, v)].find? (fun p => p.1 == n)) = none := by
    simp
    exact fun hk => h hk.symm
  rw [h2]
  have h3 : (m.filter (fun p => !(p.1 == k))).find? (fun p => p.1 == n)
      = m.find? (fun p => p.1 == n) := by
    induction m with
    | nil => rfl
    | cons p rest ih =>
      rw [List.filter_cons]
      by_cases hpk : (p.1 == k) = true
      · have hpn : (p.1 == n) = false := by
          simp at hpk ⊢
          rw [hpk]
          exact fun hkn => h hkn.symm
        have hcond : (!(p.1 == k)) = false := by rw [hpk]; rfl
        simp only [hcond, Bool.false_eq_true, if_false, List.find?_cons, hpn]
        exact ih
      · have hpk' : (p.1 == k) = false := by simpa using hpk
        have hcond : (!(p.1 == k)) = true := by rw [hpk']; rfl
        simp only [hcond, if_true, List.find?_cons]
        cases hpn : (p.1 == n) with
        | true => rfl
        | false => exact ih
  rw [h3]
  cases m.find? (fun p => p.1 == n) <;> rfl

/-! ## Claim C1. -/

/-- C1: the spec requires that a `Lagged` notice from the broadcast
receiver not terminate the bridge, but the outbound task's
`while let Ok(data) = serial_rx.recv().await` loop exits on any `Err`,
including `Lagged`, even while the socket is healthy — after which the
`select!` aborts the inbound task, terminating the bridge.  This theorem
evaluates the embedded code at the failing input. -/
theorem lagged_terminates_bridge :
    outboundIter (.error (.lagged 1)) true = false ∧
    outboundIter (.ok [104, 105]) true = true ∧
    bridgeTerminates true false = true :=
  ⟨rfl, rfl, rfl⟩

/-! ## Claim C4. -/

/-- C4: `is_connected` starts `true` at session creation and is monotone
non-increasing: no transition of a session — either task's step, `send`,
`subscribe`, `stop`, or dropping the handles — ever turns it back to
`true`. -/
theorem is_connected_monotone :
    (∀ cfg, (SerialConnection.new cfg).stats.is_connected = true) ∧
    (∀ (s : SessionState) (e : SessionEvent),
      (sessionStep s e).stats.is_connected = true → s.stats.is_connected = true) := by
  refine ⟨fun cfg => rfl, fun s e h => ?_⟩
  cases e with
  | reader re =>
    by_cases hr : s.readerRunning
    · cases re with
      | readData data =>
        cases data with
        | nil => simp [sessionStep, hr, readerStep, readerExit] at h
        | cons b bs =>
          by_cases hl : s.config.logging.enabled <;>
            simpa [sessionStep, hr, readerStep, hl] using h
      | readErr => simp [sessionStep, hr, readerStep, readerExit] at h
      | shutdownRecv =>
        simp only [sessionStep, hr, if_true, readerStep] at h
        by_cases hsig : s.shutdownSignaled ∨ ¬s.shutdownTx
        · rw [if_pos hsig] at h
          simp [readerExit] at h
        · rwa [if_neg hsig] at h
    · simpa [sessionStep, hr] using h
  | writer wOk =>
    by_cases hw : s.writerRunning
    · simp only [sessionStep, hw, if_true, writerStep] at h
      cases hm : s.mailbox with
      | nil =>
        rw [hm] at h
        by_cases hd : s.sendersDropped
        · simpa [hd] using h
        · simpa [hd] using h
      | cons d rest =>
        rw [hm] at h
        cases wOk with
        | true =>
          by_cases hl : s.config.logging.enabled
          · simpa [hl] using h
          · simpa [hl] using h
        | false => simpa using h
    · simpa [sessionStep, hw] using h
  | apiSend data =>
    by_cases hw : s.writerRunning <;> simpa [sessionStep, SerialConnection.send, hw] using h
  | apiStop =>
    by_cases hs : s.shutdownTx <;> simpa [sessionStep, SerialConnection.stop, hs] using h
  | apiSubscribe => simpa [sessionStep, SerialConnection.subscribe] using h
  | dropHandles => simpa [sessionStep] using h

/-- C4 witness: concrete instance at a running session. -/
theorem is_connected_monotone_witness :
    (SerialConnection.new cfgA).stats.is_connected = true ∧
    sessA.stats.is_connected = true := by
  refine ⟨is_connected_monotone.1 cfgA, ?_⟩
  exact is_connected_monotone.2 sessA (.reader (.readData [104])) (by decide)

/-! ## Claim C6. -/

/-- C6: a failed device write performs no state effect — `bytes_sent`
unchanged, no TX record — and the writer loop continues; the writer task
exits only on a closed mailbox (every sender dropped).  At the state
level, a failed write of the head block leaves the writer running and
the session intact except for the consumed block. -/
theorem write_error_does_not_tear_down (logging : Bool) (data : SerialData) :
    writerActions logging (.recv data false) = ([], true) ∧
    (∀ e : WriteEvent, (writerActions logging e).2 = false ↔ e = WriteEvent.closed) ∧
    (∀ (s : SessionState) (rest : List SerialData),
      s.writerRunning = true → s.mailbox = data :: rest →
      (sessionStep s (.writer false)).writerRunning = true ∧
      (sessionStep s (.writer false)).mailbox = rest ∧
      (sessionStep s (.writer false)).stats = s.stats ∧
      (sessionStep s (.writer false)).logRecords = s.logRecords) := by
  refine ⟨rfl, fun e => ?_, fun s rest hw hm => ?_⟩
  · cases e with
    | recv d wOk => cases wOk <;> simp [writerActions]
    | closed => simp [writerActions]
  · simp [sessionStep, hw, writerStep, hm]

/-- C6 witness. -/
theorem write_error_does_not_tear_down_witness :
    (sessionStep { sessA with mailbox := [[1, 2]] } (.writer false)).writerRunning = true ∧
    (sessionStep { sessA with mailbox := [[1, 2]] } (.writer false)).stats =
      ({ sessA with mailbox := [[1, 2]] } : SessionState).stats := by
  have h := write_error_does_not_tear_down false [1, 2]
  have h3 := h.2.2 { sessA with mailbox := [[1, 2]] } [] rfl rfl
  exact ⟨h3.1, h3.2.2.1⟩

/-! ## Claim C9. -/

/-- C9: for a name with no registry entry, `get_connection_info` answers
with `Ok` (rendered as a 200, never a 404): the object echoes the
requested name, the string fields are empty and `baud_rate` is 0; the
registry is not mutated. -/
theorem get_connection_info_missing (w : ManagerWorld) (name : String)
    (h : lookupReg w.registry name = none) :
    (get_connection_info w name).1 = w ∧
    (get_connection_info w name).2 =
      .ok { name := name, port := "", baud_rate := 0
            data_bits := "", stop_bits := "", parity := "" } ∧
    responseStatus (get_connection_info w name).2 = 200 := by
  have hg : SerialManager.get_connection w name = none := by
    simp [SerialManager.get_connection, h]
  refine ⟨rfl, ?_, ?_⟩ <;> simp [get_connection_info, hg, responseStatus]

/-- C9 witness: the name `"nope"` against the one-session world. -/
theorem get_connection_info_missing_witness :
    (get_connection_info w1 "nope").2 =
      .ok { name := "nope", port := "", baud_rate := 0
            data_bits := "", stop_bits := "", parity := "" } ∧
    responseStatus (get_connection_info w1 "nope").2 = 200 := by
  have h := get_connection_info_missing w1 "nope" (by decide)
  exact ⟨h.2.1, h.2.2⟩

/-! ## Claim C10. -/

/-- C10: `stop()` takes only the shutdown sender — the write mailbox stays
open and the writer task keeps running.  After `stop`, `send` still
returns ok and enqueues the block, and a subsequent writer-task step
dequeues it and adds its length to `bytes_sent`. -/
theorem stop_leaves_write_path_open (s : SessionState) (data : SerialData)
    (hw : s.writerRunning = true) (hm : s.mailbox = []) :
    (SerialConnection.stop s).writerRunning = s.writerRunning ∧
    (SerialConnection.stop s).sendersDropped = s.sendersDropped ∧
    (SerialConnection.stop s).mailbox = s.mailbox ∧
    (SerialConnection.send (SerialConnection.stop s) data).2 = SendResult.ok ∧
    ((SerialConnection.send (SerialConnection.stop s) data).1).mailbox = [data] ∧
    (sessionStep ((SerialConnection.send (SerialConnection.stop s) data).1)
        (.writer true)).stats.bytes_sent = s.stats.bytes_sent + data.length ∧
    (sessionStep ((SerialConnection.send (SerialConnection.stop s) data).1)
        (.writer true)).mailbox = [] := by
  obtain ⟨cfg, ⟨br, bsent, ic⟩, mb, sd, stx, ssg, rr, wr, bl, lr⟩ := s
  simp only at hw hm
  subst hw
  subst hm
  by_cases hs : stx = true <;> by_cases hl : cfg.logging.enabled = true <;>
    simp [SerialConnection.stop, SerialConnection.send, sessionStep, writerStep, hs, hl]

/-- C10 witness: a concrete session, stopped, still accepts and writes. -/
theorem stop_leaves_write_path_open_witness :
    (SerialConnection.send (SerialConnection.stop sessA) [7, 8]).2 = SendResult.ok ∧
    (sessionStep ((SerialConnection.send (SerialConnection.stop sessA) [7, 8]).1)
        (.writer true)).stats.bytes_sent = sessA.stats.bytes_sent + 2 := by
  have h := stop_leaves_write_path_open sessA [7, 8] rfl rfl
  exact ⟨h.2.2.2.1, h.2.2.2.2.2.1⟩

/-! ## Claim C5. -/

/-- C5: in one reader iteration on a nonempty block the very first state
effect is the `bytes_received` increment by exactly the block length —
before the log submission and the broadcast publish — and it is the only
counter effect of the iteration; one successful writer iteration
performs exactly one `bytes_sent` increment by the block length and
never touches `bytes_received`; and none of the `SerialConnection`
methods (`send`, `stop`, `subscribe`) mutates the statistics. -/
theorem counters_exact_and_ordered (logging : Bool) (data : SerialData)
    (hd : data ≠ []) :
    (readerActions logging (.readData data)).1.head? = some (.incRecv data.length) ∧
    (readerActions logging (.readData data)).1.filter isIncRecv
      = [.incRecv data.length] ∧
    (readerActions logging (.readData data)).1.filter isIncSent = [] ∧
    (writerActions logging (.recv data true)).1.filter isIncSent
      = [.incSent data.length] ∧
    (∀ e : WriteEvent, (writerActions logging e).1.filter isIncRecv = []) ∧
    (∀ s : SessionState, s.readerRunning = true →
      (sessionStep s (.reader (.readData data))).stats.bytes_received
        = s.stats.bytes_received + data.length) ∧
    (∀ (s : SessionState) (rest : List SerialData), s.writerRunning = true →
      s.mailbox = data :: rest →
      (sessionStep s (.writer true)).stats.bytes_sent
        = s.stats.bytes_sent + data.length) ∧
    (∀ (s : SessionState) (d : SerialData),
      ((SerialConnection.send s d).1).stats = s.stats) ∧
    (∀ s : SessionState, (SerialConnection.stop s).stats = s.stats) ∧
    (∀ s : SessionState, ((SerialConnection.subscribe s).1).stats = s.stats) := by
  cases data with
  | nil => exact absurd rfl hd
  | cons b bs =>
    refine ⟨?_, ?_, ?_, ?_, ?_, ?_, ?_, ?_, ?_, ?_⟩
    · cases logging <;> rfl
    · cases logging <;> rfl
    · cases logging <;> rfl
    · cases logging <;> rfl
    · intro e
      cases e with
      | recv d wOk => cases wOk <;> cases logging <;> rfl
      | closed => rfl
    · intro s hr
      by_cases hl : s.config.logging.enabled <;>
        simp [sessionStep, hr, readerStep, hl]
    · intro s rest hw hmb
      by_cases hl : s.config.logging.enabled <;>
        simp [sessionStep, hw, writerStep, hmb, hl]
    · intro s d
      by_cases hw : s.writerRunning <;> simp [SerialConnection.send, hw]
    · intro s
      by_cases hs : s.shutdownTx <;> simp [SerialConnection.stop, hs]
    · intro s
      rfl

/-- C5 witness. -/
theorem counters_exact_and_ordered_witness :
    (readerActions true (.readData [5, 6])).1.head? = some (.incRecv 2) ∧
    (writerActions true (.recv [5, 6] true)).1.filter isIncSent = [.incSent 2] ∧
    (sessionStep { sessA with mailbox := [[5, 6]] } (.writer true)).stats.bytes_sent
      = ({ sessA with mailbox := [[5, 6]] } : SessionState).stats.bytes_sent + 2 := by
  have h := counters_exact_and_ordered true [5, 6] (by decide)
  exact ⟨h.1, h.2.2.2.1,
    h.2.2.2.2.2.2.1 { sessA with mailbox := [[5, 6]] } [] rfl rfl⟩

/-! ## Claim C7. -/

theorem hexDigitChar_lower : ∀ m < 16,
    (48 ≤ (hexDigitChar m).toNat ∧ (hexDigitChar m).toNat ≤ 57) ∨
    (97 ≤ (hexDigitChar m).toNat ∧ (hexDigitChar m).toNat ≤ 102) := by
  decide

/-- C7: each `log_data` call appends exactly one line of the structure
`[timestamp] <name> | <dir> | <n> bytes | HEX: <hex> | ASCII: <ascii>`
plus newline, with `n` the block length; the hex column is the
space-separated two-digit lowercase hex of the bytes in order (each pair
decodes back to its byte); the ASCII column maps printable bytes
(0x20–0x7e, space included) to themselves and every other byte to a dot;
`log_received`/`log_sent` are `log_data` at `RX`/`TX`. -/
theorem log_data_format (lg : SerialLogger) (ts dir : String) (data : SerialData)
    (h : ∀ b ∈ data, b < 256) :
    (lg.log_data ts dir data).lines = lg.lines ++
      ["[" ++ ts ++ "] " ++ lg.connection_name ++ " | " ++ dir ++ " | " ++
        toString data.length ++ " bytes | HEX: " ++
        String.intercalate " " (data.map hexByte) ++ " | ASCII: " ++
        String.mk (data.map asciiDisplay) ++ "\n"] ∧
    (∀ b ∈ data, (hexByte b).data.length = 2 ∧
      hexDecodeChars (hexByte b).data = some [b] ∧
      (∀ c ∈ (hexByte b).data,
        (48 ≤ c.toNat ∧ c.toNat ≤ 57) ∨ (97 ≤ c.toNat ∧ c.toNat ≤ 102))) ∧
    (∀ b : Nat, asciiDisplay b = if 0x20 ≤ b ∧ b ≤ 0x7e then Char.ofNat b else '.') ∧
    (lg.log_received ts data).lines
      = lg.lines ++ [logLine ts lg.connection_name "RX" data] ∧
    (lg.log_sent ts data).lines
      = lg.lines ++ [logLine ts lg.connection_name "TX" data] := by
  refine ⟨rfl, ?_, ?_, rfl, rfl⟩
  · intro b hb
    have hb' := h b hb
    have h1 : b / 16 < 16 := by omega
    have h2 : b % 16 < 16 := by omega
    refine ⟨rfl, ?_, ?_⟩
    · have hp := hexDecodeChars_append_pair b hb' []
      simpa using hp
    · intro c hc
      have hc2 : c ∈ [hexDigitChar (b / 16), hexDigitChar (b % 16)] := hc
      have hc' : c = hexDigitChar (b / 16) ∨ c = hexDigitChar (b % 16) := by
        simpa using hc2
      rcases hc' with rfl | rfl
      · exact hexDigitChar_lower _ h1
      · exact hexDigitChar_lower _ h2
  · intro b
    by_cases hb : 0x20 ≤ b ∧ b ≤ 0x7e
    · simp only [asciiDisplay]
      rw [if_pos (by omega), if_pos hb]
    · simp only [asciiDisplay]
      rw [if_neg (by omega), if_neg hb]

/-- C7 witness: one record over the bytes `[72, 0, 32]`. -/
theorem log_data_format_witness :
    (SerialLogger.log_data ⟨"dev", []⟩ "2024-01-01 00:00:00.000" "RX" [72, 0, 32]).lines
      = ["[2024-01-01 00:00:00.000] dev | RX | 3 bytes | HEX: 48 00 20 | ASCII: H. \n"] ∧
    hexDecodeChars (hexByte 72).data = some [72] := by
  have h := log_data_format ⟨"dev", []⟩ "2024-01-01 00:00:00.000" "RX" [72, 0, 32]
    (by decide)
  refine ⟨?_, (h.2.1 72 (by decide)).2.1⟩
  rw [h.1]
  rfl

/-! ## Claim C8. -/

theorem hexDigitChar_ne_space : ∀ m < 16, hexDigitChar m ≠ ' ' := by
  decide

theorem hexEncodeChars_no_space (data : SerialData) (h : ∀ b ∈ data, b < 256) :
    (hexEncodeChars data).filter (fun c => c ≠ ' ') = hexEncodeChars data := by
  rw [List.filter_eq_self]
  intro c hc
  rw [hexEncodeChars, List.mem_flatMap] at hc
  obtain ⟨b, hb, hcb⟩ := hc
  have hb' := h b hb
  have h1 : b / 16 < 16 := by omega
  have h2 : b % 16 < 16 := by omega
  have hc' : c = hexDigitChar (b / 16) ∨ c = hexDigitChar (b % 16) := by
    simpa using hcb
  simp only [decide_eq_true_eq]
  rcases hc' with rfl | rfl
  · exact hexDigitChar_ne_space _ h1
  · exact hexDigitChar_ne_space _ h2

/-- C8: the send-endpoint decoders satisfy the round trips.  Hex decoding
of the lowercase no-space encoding of any byte sequence restores it; so
does hex decoding of any string whose non-space characters are that
encoding (the handler strips spaces first); base64 decoding of the
canonical padded encoding restores it; `"Hello"` as text,
`"48656c6c6f"` as hex and `"SGVsbG8="` as base64 all decode to the same
five bytes. -/
theorem send_decoders_round_trip (data : SerialData) (h : ∀ b ∈ data, b < 256) :
    send_data_decode .hex (hexEncode data) = .ok data ∧
    (∀ s : String, (stripSpaces s).data = hexEncodeChars data →
      send_data_decode .hex s = .ok data) ∧
    send_data_decode .base64 (base64Encode data) = .ok data ∧
    send_data_decode .text "Hello" = .ok [72, 101, 108, 108, 111] ∧
    send_data_decode .hex "48656c6c6f" = .ok [72, 101, 108, 108, 111] ∧
    send_data_decode .base64 "SGVsbG8=" = .ok [72, 101, 108, 108, 111] := by
  refine ⟨?_, ?_, ?_, by rfl, by rfl, by rfl⟩
  · have hhex : hexDecode (stripSpaces (hexEncode data)) = some data := by
      have e1 : (stripSpaces (hexEncode data)).data
          = (hexEncodeChars data).filter (fun c => c ≠ ' ') := rfl
      unfold hexDecode
      rw [e1, hexEncodeChars_no_space data h]
      exact hexDecodeChars_hexEncodeChars data h
    simp [send_data_decode, hhex]
  · intro s hs
    have hdec : hexDecode (stripSpaces s) = some data := by
      unfold hexDecode
      rw [hs]
      exact hexDecodeChars_hexEncodeChars data h
    simp [send_data_decode, hdec]
  · have hb64 : base64Decode (base64Encode data) = some data :=
      base64DecodeChars_base64EncodeChars data h
    simp [send_data_decode, hb64]

/-- C8 witness: the bytes `[0, 77, 255]`, including a spaced hex form. -/
theorem send_decoders_round_trip_witness :
    send_data_decode .hex (hexEncode [0, 77, 255]) = .ok [0, 77, 255] ∧
    send_data_decode .hex "00 4d ff" = .ok [0, 77, 255] ∧
    send_data_decode .base64 (base64Encode [0, 77, 255]) = .ok [0, 77, 255] := by
  have h := send_decoders_round_trip [0, 77, 255] (by decide)
  exact ⟨h.1, h.2.1 "00 4d ff" (by decide), h.2.2.1⟩

/-! ## Claim C2. -/

/-- C2 counterexample: with a session already live under `"a"` (id 0),
`add_connection` for an enabled config with the same name does not fail
with a duplicate-name error: it returns ok and the registry entry for
`"a"` now holds the newly opened session (id 1). -/
theorem add_duplicate_returns_ok :
    lookupReg w1.registry "a" = some 0 ∧
    (SerialManager.add_connection w1 cfgA2 true).2 = Except.ok () ∧
    lookupReg (SerialManager.add_connection w1 cfgA2 true).1.registry "a" = some 1 :=
  ⟨rfl, rfl, rfl⟩

/-- C2 amended: `add_connection` performs no duplicate-name check.  With
a live session already registered under `c.name`, adding an enabled
config under that name succeeds: the newly opened session is inserted,
replacing the registry entry; entries under other names are untouched;
and the displaced session object is left in the heap unmodified — it is
dropped from the map without `stop()` being called on it. -/
theorem add_connection_replaces_existing (w : ManagerWorld)
    (c : SerialConnectionConfig) (sid0 : Nat)
    (hen : c.enabled = true) (hdup : lookupReg w.registry c.name = some sid0) :
    (SerialManager.add_connection w c true).2 = .ok () ∧
    lookupReg (SerialManager.add_connection w c true).1.registry c.name
      = some w.nextId ∧
    (SerialManager.add_connection w c true).1.heap
      = w.heap ++ [(w.nextId, SerialConnection.new c)] ∧
    (∀ n, n ≠ c.name →
      lookupReg (SerialManager.add_connection w c true).1.registry n
        = lookupReg w.registry n) := by
  have hadd : SerialManager.add_connection w c true =
      ({ registry := insertReg c.name w.nextId w.registry
         heap := w.heap ++ [(w.nextId, SerialConnection.new c)]
         nextId := w.nextId + 1 }, .ok ()) := by
    simp [SerialManager.add_connection, hen]
  rw [hadd]
  exact ⟨rfl, lookupReg_insertReg_self _ _ _, rfl,
    fun n hn => lookupReg_insertReg_ne _ _ _ _ hn⟩

/-- C2 amended witness: the concrete duplicate add over `w1`. -/
theorem add_connection_replaces_existing_witness :
    (SerialManager.add_connection w1 cfgA2 true).2 = .ok () ∧
    lookupReg (SerialManager.add_connection w1 cfgA2 true).1.registry "b"
      = lookupReg w1.registry "b" := by
  have h := add_connection_replaces_existing w1 cfgA2 0 rfl rfl
  exact ⟨h.1, h.2.2.2 "b" (by decide)⟩

/-! ## Claim C3. -/

/-- C3 counterexample: in the one-session world, `shutdown` returns with
session 0 still in the heap, both its tasks still running and
`is_connected` still true: the registry keeps no join handles and awaits
no task termination, so not every session task has terminated (nor is
the log file closed) when `shutdown()` returns. -/
theorem shutdown_returns_with_tasks_running :
    lookupReg w1.registry "a" = some 0 ∧
    (heapGet (SerialManager.shutdown w1).heap 0).map
        (fun s => (s.readerRunning, s.writerRunning, s.stats.is_connected))
      = some (true, true, true) :=
  ⟨rfl, rfl⟩

theorem heapUpdate_stop_fields (h : List (Nat × SessionState)) (sid : Nat) :
    (heapUpdate h sid SerialConnection.stop).map
        (fun p => (p.1, p.2.readerRunning, p.2.writerRunning, p.2.stats.is_connected))
      = h.map
        (fun p => (p.1, p.2.readerRunning, p.2.writerRunning, p.2.stats.is_connected)) := by
  unfold heapUpdate
  rw [List.map_map]
  apply List.map_congr_left
  intro p _
  by_cases hp : (p.1 == sid) = true
  · obtain ⟨hr, hw, hst, _, _, _⟩ := stop_preserves p.2
    simp [Function.comp, hp, hr, hw, hst]
  · simp [Function.comp, hp]

theorem drainStop_fields (names : List (String × Nat)) (h : List (Nat × SessionState)) :
    (drainStop names h).map
        (fun p => (p.1, p.2.readerRunning, p.2.writerRunning, p.2.stats.is_connected))
      = h.map
        (fun p => (p.1, p.2.readerRunning, p.2.writerRunning, p.2.stats.is_connected)) := by
  induction names generalizing h with
  | nil => rfl
  | cons a rest ih =>
    obtain ⟨nm, sid⟩ := a
    simp only [drainStop]
    rw [ih, heapUpdate_stop_fields]

theorem mem_drainStop (names : List (String × Nat)) (h : List (Nat × SessionState))
    (q : Nat × SessionState) (hq : q ∈ drainStop names h) :
    q ∈ h ∨ q.2.shutdownTx = false := by
  induction names generalizing h with
  | nil => exact Or.inl hq
  | cons a rest ih =>
    obtain ⟨nm, sid⟩ := a
    simp only [drainStop] at hq
    rcases ih _ hq with hmem | hstop
    · unfold heapUpdate at hmem
      rw [List.mem_map] at hmem
      obtain ⟨p, hp, hfp⟩ := hmem
      by_cases hps : (p.1 == sid) = true
      · right
        rw [← hfp]
        simp [hps, stop_shutdownTx]
      · left
        rw [← hfp]
        simp only [hps, Bool.false_eq_true, if_false]
        exact hp
    · exact Or.inr hstop

theorem drainStop_stops_registered (names : List (String × Nat))
    (h : List (Nat × SessionState)) :
    ∀ p ∈ names, ∀ q ∈ drainStop names h, q.1 = p.2 → q.2.shutdownTx = false := by
  induction names generalizing h with
  | nil =>
    intro p hp
    exact absurd hp (List.not_mem_nil p)
  | cons a rest ih =>
    intro p hp q hq hqp
    obtain ⟨nm, sid⟩ := a
    simp only [drainStop] at hq
    rcases List.mem_cons.mp hp with rfl | hp'
    · rcases mem_drainStop rest _ q hq with hmem | hstop
      · unfold heapUpdate at hmem
        rw [List.mem_map] at hmem
        obtain ⟨r, hr, hrq⟩ := hmem
        by_cases hrs : (r.1 == sid) = true
        · rw [← hrq]
          simp [hrs, stop_shutdownTx]
        · exfalso
          rw [← hrq] at hqp
          simp only [hrs, Bool.false_eq_true, if_false] at hqp
          simp at hrs
          exact hrs hqp
      · exact hstop
    · exact ih _ p hp' q hq hqp

/-- C3 amended: `shutdown` drains the registry and calls `stop()` on each
drained entry, so every registered session's shutdown sender is taken
and the signal sent — but it awaits no task termination: every heap
session's `readerRunning`, `writerRunning` and `is_connected` are
exactly as before the call, so tasks may still be running (and their
log files still open) at the moment `shutdown()` returns; they terminate
only when they later observe the signal or the closed mailbox. -/
theorem shutdown_signals_without_awaiting (w : ManagerWorld) :
    (SerialManager.shutdown w).registry = [] ∧
    (SerialManager.shutdown w).heap.map
        (fun p => (p.1, p.2.readerRunning, p.2.writerRunning, p.2.stats.is_connected))
      = w.heap.map
        (fun p => (p.1, p.2.readerRunning, p.2.writerRunning, p.2.stats.is_connected)) ∧
    (∀ p ∈ w.registry, ∀ q ∈ (SerialManager.shutdown w).heap,
      q.1 = p.2 → q.2.shutdownTx = false) := by
  refine ⟨rfl, drainStop_fields w.registry w.heap, ?_⟩
  intro p hp q hq hqp
  exact drainStop_stops_registered w.registry w.heap p hp q hq hqp

/-- C3 amended witness: the one-session world. -/
theorem shutdown_signals_without_awaiting_witness :
    (SerialManager.shutdown w1).registry = [] ∧
    ({ sessA with shutdownTx := false, shutdownSignaled := true }
        : SessionState).shutdownTx = false := by
  have h := shutdown_signals_without_awaiting w1
  refine ⟨h.1, ?_⟩
  exact h.2.2 ("a", 0) (by decide)
    (0, { sessA with shutdownTx := false, shutdownSignaled := true }) (by decide) rfl

end Webmux
